import Mathlib

/-!
Shallow embedding of the sampling KNN baseline (`src/baseline.cpp`,
`src/io.cpp`, `include/io.h`) and proofs about it.

Modelling conventions:
* `float` scalar values are modelled as exact rationals (`ℚ`).  Every concrete
  value appearing in the theorems below is exactly representable in IEEE-754
  single precision (or, for `0.001f`, has the same integer truncation as the
  stored float), and every property proved is invariant under the rounding of
  the individual arithmetic operations it mentions, so nothing proved here
  depends on the idealisation.
* `uint32_t` arithmetic is `ℕ` with explicit reduction `% U32`; `int32_t`
  casts are `ℤ` truncation toward zero.
* Out-of-range vector accesses (undefined behaviour in C++) surface either as
  `Except.error` values (in the I/O routines, where the claims are about that
  behaviour) or as `List.getD` defaults (in the query evaluator, where claim
  C9 delimits the in-bounds precondition).
* C `while` loops are embedded as structural recursion on an explicit
  iteration bound (`fuel`); a lemma shows the chosen bound is large enough, so
  the bound is invisible in the characterisations proved below.
* `std::ranges::sort` leaves the order of equal keys unspecified; it is
  modelled by `List.insertionSort`, a conforming comparison sort.  All
  concrete evaluations below use pairwise distinct keys, where every
  conforming sort produces the same output.
-/

namespace Baseline

/-- Modulus of C `uint32_t` arithmetic. -/
def U32 : ℕ := 2 ^ 32

/-- C truncation of a real (float) value toward zero, as in
`static_cast<int32_t>(x)`.  A rational is stored in lowest terms with a
positive denominator, so `num.tdiv den` truncates the value toward zero. -/
def cTrunc (q : ℚ) : ℤ := q.num.tdiv (q.den : ℤ)

/-- C cast of a float value to `uint32_t`, as in `static_cast<uint32_t>(x)`:
truncation toward zero.  (For values outside `[0, 2^32)` the C cast is
undefined; no claim below exercises that range.) -/
def cToUInt32 (q : ℚ) : ℕ := (cTrunc q).toNat % U32

/-- `kSampleProportion = 0.001F` (baseline.cpp).  The stored IEEE single
nearest to 1/1000 differs from 1/1000 by less than 5e-11; both lie strictly
between 0 and 1, so they have the same truncation toward zero, which is the
only use the program makes of this constant. -/
def kSampleProportion : ℚ := mkRat 1 1000

/-- `K_NEAREST = 100` (baseline.cpp): the number of neighbours per query. -/
def K_NEAREST : ℕ := 100

/-- `auto sample_prop = (n_points * static_cast<uint32_t>(sample_proportion));`
(baseline.cpp line 59 / glasshouse line 72): the cast applies to the
proportion alone, before the multiplication, and the product is `uint32_t`. -/
def sample_prop (n_points : ℕ) : ℕ :=
  (n_points * cToUInt32 kSampleProportion) % U32

/-- Modelled from the spec: the sample size the spec prescribes,
`floor(N × sampleProportion)` with the product truncated toward zero
("sampleProportion × N truncated toward zero via integer truncation").
Stated only for comparison with `sample_prop`, the quantity the code
computes. -/
def specSampleSize (n : ℕ) : ℕ := (cTrunc ((n : ℚ) * kSampleProportion)).toNat

/-- `compare_with_id` (baseline.cpp lines 18-27): squared Euclidean distance
over the dimensions of `lhs` from index 2 upward ("Skip the first 2
dimensions").  The loop bound is `lhs.size()`; `rhs` is read at the same
indices. -/
def compare_with_id (lhs rhs : List ℚ) : ℚ :=
  (((List.range lhs.length).drop 2).map fun i =>
    (lhs.getD i 0 - rhs.getD i 0) * (lhs.getD i 0 - rhs.getD i 0)).sum

/-- `auto query_type = static_cast<uint32_t>(queries[i][0]);` -/
def query_type (q : List ℚ) : ℕ := cToUInt32 (q.getD 0 0)

/-- `auto value = static_cast<int32_t>(queries[i][1]);` -/
def query_value (q : List ℚ) : ℤ := cTrunc (q.getD 1 0)

/-- `float l_bound = queries[i][2];` -/
def l_bound (q : List ℚ) : ℚ := q.getD 2 0

/-- `float r_bound = queries[i][3];` -/
def r_bound (q : List ℚ) : ℚ := q.getD 3 0

/-- The query feature vector: two zero slots for alignment with the dataset
layout, then the query fields from index 4 on (baseline.cpp lines 76-80). -/
def query_vec (q : List ℚ) : List ℚ := 0 :: 0 :: q.drop 4

/-- Candidate generation (baseline.cpp lines 84-108): scan indices
`j < sample_prop` and keep those passing the kind's predicate.  Kind 0 keeps
every scanned index; kind 1 compares `nodes[j][0]` with
`static_cast<float>(value)` (the truncated equality value cast back to
float, here the exact rational image of that integer); kind 2 is the
inclusive range test on `nodes[j][1]`; kind 3 is the conjunction.  Any other
kind leaves the candidate list empty.  The scan bound is a parameter `sp`;
the program instantiates it with `sample_prop n_points`. -/
def candidates (nodes : List (List ℚ)) (q : List ℚ) (sp : ℕ) : List ℕ :=
  if query_type q = 0 then
    List.range sp
  else if query_type q = 1 then
    (List.range sp).filter fun j =>
      decide ((nodes.getD j []).getD 0 0 = (query_value q : ℚ))
  else if query_type q = 2 then
    (List.range sp).filter fun j =>
      decide (l_bound q ≤ (nodes.getD j []).getD 1 0 ∧
        (nodes.getD j []).getD 1 0 ≤ r_bound q)
  else if query_type q = 3 then
    (List.range sp).filter fun j =>
      decide ((nodes.getD j []).getD 0 0 = (query_value q : ℚ) ∧
        l_bound q ≤ (nodes.getD j []).getD 1 0 ∧
        (nodes.getD j []).getD 1 0 ≤ r_bound q)
  else []

/-- The padding `while` loop (baseline.cpp lines 112-118): while fewer than
`K_NEAREST` candidates, push `n_points - sampled` (a `uint32_t` difference,
hence the `% U32`; `sampled` stays below 2^32 throughout, since the loop runs
at most `K_NEAREST` times) and increment `sampled`.  `fuel` bounds the number
of iterations of the structural recursion; `padLoop_eq_append` shows any fuel
of at least `K_NEAREST` realises the loop exactly. -/
def padLoop (n_points : ℕ) : ℕ → List ℕ → ℕ → List ℕ
  | 0, knn, _ => knn
  | fuel + 1, knn, sampled =>
    if knn.length < K_NEAREST then
      padLoop n_points fuel (knn ++ [(n_points + U32 - sampled) % U32]) (sampled + 1)
    else knn

/-- The padding step as invoked by the program: `sampled` starts at 1. -/
def pad (n_points : ℕ) (knn : List ℕ) : List ℕ :=
  padLoop n_points K_NEAREST knn 1

/-- `dists[j] = compare_with_id(nodes[knn[j]], query_vec);`
(baseline.cpp lines 121-125): distance key of candidate id `id`. -/
def dist_to_query (nodes : List (List ℚ)) (q : List ℚ) (id : ℕ) : ℚ :=
  compare_with_id (nodes.getD id []) (query_vec q)

/-- Sorting and truncation (baseline.cpp lines 127-137): sort the candidate
ids ascending by their distance key, keep the first `K_NEAREST`. -/
def knn_sorted (nodes : List (List ℚ)) (q : List ℚ) (knn : List ℕ) : List ℕ :=
  (List.insertionSort
    (fun a b => dist_to_query nodes q a ≤ dist_to_query nodes q b) knn).take K_NEAREST

/-- The whole per-query pipeline of the evaluator loop: candidate generation,
padding, distance ranking, truncation to `K_NEAREST`. -/
def processQuery (nodes : List (List ℚ)) (q : List ℚ) (sp : ℕ) : List ℕ :=
  knn_sorted nodes q (pad nodes.length (candidates nodes q sp))

/-- Failure modes of the embedded I/O routines.  `outOfBounds` stands for an
out-of-bounds `std::vector` access (undefined behaviour in the C++ source);
`assertionFailure` for a failed `assert`; `fuelExhausted` marks a loop that
would not terminate (it cannot occur for the instantiations used below). -/
inductive CError where
  | outOfBounds : CError
  | assertionFailure : CError
  | fuelExhausted : CError
deriving DecidableEq

/-- The read loop of `knn::ReadBin` (io.cpp lines 40-52).  `data` starts as
`N` empty rows (`data.resize(N)`); each successful read of a full row
(`num_dimensions` floats remaining in `payload`) stores it at `data[counter]`
and advances.  Storing at `counter ≥ data.length` is an out-of-bounds vector
write.  A trailing read shorter than a full row fails the loop condition and
ends the loop with the rows read so far. -/
def readLoop (num_dimensions : ℕ) :
    ℕ → List (List ℚ) → ℕ → List ℚ → Except CError (List (List ℚ))
  | 0, _, _, _ => Except.error CError.fuelExhausted
  | fuel + 1, data, counter, payload =>
    if num_dimensions ≤ payload.length then
      if counter < data.length then
        readLoop num_dimensions fuel (data.set counter (payload.take num_dimensions))
          (counter + 1) (payload.drop num_dimensions)
      else Except.error CError.outOfBounds
    else Except.ok data

/-- `knn::ReadBin` (io.cpp lines 33-53) after the header: the declared row
count `declared_count` has been read, `data` is resized to that many (empty)
rows, and the remaining float stream `payload` is consumed row by row.
`payload.length + 1` iterations always suffice when a row is nonempty. -/
def ReadBin (declared_count num_dimensions : ℕ) (payload : List ℚ) :
    Except CError (List (List ℚ)) :=
  readLoop num_dimensions (payload.length + 1) (List.replicate declared_count []) 0 payload

/-- `knn::SaveKNN` (io.cpp lines 16-28): assert that the *first* result row
has exactly `K = 100` entries (`knns.front()` on an empty vector is
out-of-bounds), then write each row as `K` consecutive `uint32_t` words —
an out-of-bounds read if some row holds fewer than `K` entries.  The output
is the flat word stream: no header, no row count, no separators. -/
def SaveKNN (knns : List (List ℕ)) : Except CError (List ℕ) :=
  if knns.length = 0 then Except.error CError.outOfBounds
  else if (knns.headD []).length ≠ K_NEAREST then Except.error CError.assertionFailure
  else if ∀ r ∈ knns, K_NEAREST ≤ r.length then
    Except.ok (knns.flatMap fun r => r.take K_NEAREST)
  else Except.error CError.outOfBounds

deriving instance DecidableEq for Except

/-- A 100-point dataset used in the concrete evaluations below: point `i` is
`[0, 0, i]`, so its distance key to a zero feature vector is `i * i` and all
keys are pairwise distinct. -/
def ns6 : List (List ℚ) := (List.range 100).map fun i => [0, 0, (i : ℚ)]

/-- A kind-1 query with equality value 7 (matched by no point of `ns6`) and
zero feature vector. -/
def q6 : List ℚ := [1, 7, 0, 0, 0]

/-! Helper lemmas about the embedded program. -/

lemma mem_drop_two_range {n i : ℕ} (h : i ∈ (List.range n).drop 2) : 2 ≤ i ∧ i < n := by
  rw [List.mem_iff_getElem?] at h
  obtain ⟨j, hj⟩ := h
  rw [List.getElem?_drop] at hj
  rcases Nat.lt_or_ge (2 + j) n with hc | hc
  · rw [List.getElem?_range hc] at hj
    cases hj; omega
  · rw [List.getElem?_eq_none (by simpa using hc)] at hj
    cases hj

lemma padLoop_eq_append (n : ℕ) (fuel : ℕ) :
    ∀ (knn : List ℕ) (sampled : ℕ), K_NEAREST - knn.length ≤ fuel →
      padLoop n fuel knn sampled =
        knn ++ (List.range (K_NEAREST - knn.length)).map
          (fun k => (n + U32 - (sampled + k)) % U32) := by
  induction fuel with
  | zero =>
    intro knn sampled h
    have h0 : K_NEAREST - knn.length = 0 := by omega
    simp [padLoop, h0]
  | succ fuel ih =>
    intro knn sampled h
    by_cases hlt : knn.length < K_NEAREST
    · have hstep := ih (knn ++ [(n + U32 - sampled) % U32]) (sampled + 1)
        (by simp only [List.length_append, List.length_cons, List.length_nil]; omega)
      rw [padLoop, if_pos hlt, hstep]
      have hm : K_NEAREST - knn.length = (K_NEAREST - (knn.length + 1)) + 1 := by omega
      have hlen : (knn ++ [(n + U32 - sampled) % U32]).length = knn.length + 1 := by simp
      rw [hlen, hm, List.range_succ_eq_map, List.map_cons, List.map_map, List.append_assoc,
        List.singleton_append]
      refine congrArg (fun t => knn ++ t) ?_
      refine List.cons_eq_cons.mpr ⟨by simp, ?_⟩
      apply List.map_congr_left
      intro k hk
      simp only [Function.comp_apply, Nat.succ_eq_add_one]
      congr 1
      omega
    · have h0 : K_NEAREST - knn.length = 0 := by omega
      rw [padLoop, if_neg hlt]
      simp [h0]

lemma pad_eq_append (n : ℕ) (knn : List ℕ) :
    pad n knn = knn ++ (List.range (K_NEAREST - knn.length)).map
      (fun k => (n + U32 - (1 + k)) % U32) :=
  padLoop_eq_append n K_NEAREST knn 1 (Nat.sub_le _ _)

lemma pad_length (n : ℕ) (knn : List ℕ) :
    (pad n knn).length = knn.length + (K_NEAREST - knn.length) := by
  simp [pad_eq_append]

lemma K_NEAREST_le_pad_length (n : ℕ) (knn : List ℕ) :
    K_NEAREST ≤ (pad n knn).length := by
  rw [pad_length]; omega

lemma pad_eq_descending (n : ℕ) (knn : List ℕ)
    (h1 : K_NEAREST - knn.length ≤ n) (h2 : n < U32) :
    pad n knn = knn ++ (List.range (K_NEAREST - knn.length)).map (fun k => n - (k + 1)) := by
  rw [pad_eq_append]
  congr 1
  apply List.map_congr_left
  intro k hk
  rw [List.mem_range] at hk
  have he : n + U32 - (1 + k) = (n - (k + 1)) + U32 := by omega
  rw [he, Nat.add_mod_right, Nat.mod_eq_of_lt (by omega)]

lemma candidates_kind_zero (nodes : List (List ℚ)) (q : List ℚ) (sp : ℕ)
    (h : query_type q = 0) : candidates nodes q sp = List.range sp := by
  simp [candidates, h]

lemma mem_candidates_kind_one (nodes : List (List ℚ)) (q : List ℚ) (sp j : ℕ)
    (h : query_type q = 1) :
    j ∈ candidates nodes q sp ↔
      j < sp ∧ (nodes.getD j []).getD 0 0 = (query_value q : ℚ) := by
  simp [candidates, h, List.mem_filter, List.mem_range, and_comm]

lemma mem_candidates_kind_three (nodes : List (List ℚ)) (q : List ℚ) (sp j : ℕ)
    (h : query_type q = 3) :
    j ∈ candidates nodes q sp ↔
      j < sp ∧ ((nodes.getD j []).getD 0 0 = (query_value q : ℚ) ∧
        l_bound q ≤ (nodes.getD j []).getD 1 0 ∧
        (nodes.getD j []).getD 1 0 ≤ r_bound q) := by
  simp [candidates, h, List.mem_filter, List.mem_range, and_comm]

lemma candidates_lt_of_mem {nodes : List (List ℚ)} {q : List ℚ} {sp j : ℕ}
    (h : j ∈ candidates nodes q sp) : j < sp := by
  unfold candidates at h
  split at h
  · exact List.mem_range.mp h
  · split at h
    · exact List.mem_range.mp (List.mem_of_mem_filter h)
    · split at h
      · exact List.mem_range.mp (List.mem_of_mem_filter h)
      · split at h
        · exact List.mem_range.mp (List.mem_of_mem_filter h)
        · cases h

lemma candidates_sp_zero (nodes : List (List ℚ)) (q : List ℚ) :
    candidates nodes q 0 = [] := by
  have h := @candidates_lt_of_mem nodes q 0
  cases hc : candidates nodes q 0 with
  | nil => rfl
  | cons a l => exact absurd (h (hc ▸ List.mem_cons_self a l)) (by omega)

lemma isTotal_dist (nodes : List (List ℚ)) (q : List ℚ) :
    IsTotal ℕ (fun a b => dist_to_query nodes q a ≤ dist_to_query nodes q b) :=
  ⟨fun _ _ => le_total _ _⟩

lemma isTrans_dist (nodes : List (List ℚ)) (q : List ℚ) :
    IsTrans ℕ (fun a b => dist_to_query nodes q a ≤ dist_to_query nodes q b) :=
  ⟨fun _ _ _ hab hbc => le_trans hab hbc⟩

lemma sorted_insertionSort_dist (nodes : List (List ℚ)) (q : List ℚ) (knn : List ℕ) :
    List.Sorted (fun a b => dist_to_query nodes q a ≤ dist_to_query nodes q b)
      (List.insertionSort
        (fun a b => dist_to_query nodes q a ≤ dist_to_query nodes q b) knn) := by
  haveI := isTotal_dist nodes q
  haveI := isTrans_dist nodes q
  exact List.sorted_insertionSort _ knn

lemma sorted_knn_sorted (nodes : List (List ℚ)) (q : List ℚ) (knn : List ℕ) :
    List.Sorted (fun a b => dist_to_query nodes q a ≤ dist_to_query nodes q b)
      (knn_sorted nodes q knn) :=
  List.Pairwise.sublist (List.take_sublist _ _) (sorted_insertionSort_dist nodes q knn)

lemma length_knn_sorted (nodes : List (List ℚ)) (q : List ℚ) (knn : List ℕ)
    (h : K_NEAREST ≤ knn.length) : (knn_sorted nodes q knn).length = K_NEAREST := by
  simp only [knn_sorted, List.length_take, List.length_insertionSort]
  omega

lemma length_processQuery (nodes : List (List ℚ)) (q : List ℚ) (sp : ℕ) :
    (processQuery nodes q sp).length = K_NEAREST :=
  length_knn_sorted nodes q _ (K_NEAREST_le_pad_length _ _)

lemma knn_sorted_perm_of_le (nodes : List (List ℚ)) (q : List ℚ) (knn : List ℕ)
    (h : knn.length ≤ K_NEAREST) : (knn_sorted nodes q knn).Perm knn := by
  unfold knn_sorted
  rw [List.take_of_length_le (by rw [List.length_insertionSort]; omega)]
  exact List.perm_insertionSort _ knn

lemma mem_processQuery {nodes : List (List ℚ)} {q : List ℚ} {sp id : ℕ}
    (h : id ∈ processQuery nodes q sp) :
    id ∈ pad nodes.length (candidates nodes q sp) := by
  unfold processQuery knn_sorted at h
  exact ((List.perm_insertionSort _ _).mem_iff).mp
    (List.Sublist.mem h (List.take_sublist _ _))

lemma compare_with_id_congr (p p2 qv : List ℚ) (hlen : p.length = p2.length)
    (h : ∀ i, i < p.length → 2 ≤ i → p.getD i 0 = p2.getD i 0) :
    compare_with_id p qv = compare_with_id p2 qv := by
  unfold compare_with_id
  rw [← hlen]
  congr 1
  apply List.map_congr_left
  intro i hi
  rw [h i (mem_drop_two_range hi).2 (mem_drop_two_range hi).1]

lemma compare_with_id_zero (p qv : List ℚ)
    (h : ∀ i, i < p.length → 2 ≤ i → p.getD i 0 = qv.getD i 0) :
    compare_with_id p qv = 0 := by
  apply List.sum_eq_zero
  intro x hx
  rw [List.mem_map] at hx
  obtain ⟨i, hi, rfl⟩ := hx
  rw [h i (mem_drop_two_range hi).2 (mem_drop_two_range hi).1]
  ring

lemma getD_query_vec (q : List ℚ) (i : ℕ) (h : 2 ≤ i) :
    (query_vec q).getD i 0 = q.getD (i + 2) 0 := by
  obtain ⟨j, rfl⟩ := Nat.exists_eq_add_of_le h
  show (0 :: 0 :: List.drop 4 q).getD (2 + j) 0 = _
  rw [Nat.add_comm 2 j, List.getD_eq_getElem?_getD, List.getD_eq_getElem?_getD]
  have h2 : (0 :: 0 :: List.drop 4 q)[j + 2]? = (List.drop 4 q)[j]? := by
    rw [show j + 2 = (j + 1) + 1 by omega, List.getElem?_cons_succ, List.getElem?_cons_succ]
  rw [h2, List.getElem?_drop, show 4 + j = j + 2 + 2 by omega]

lemma readLoop_spec (dim : ℕ) (hdim : 0 < dim) (fuel : ℕ) :
    ∀ (data : List (List ℚ)) (counter : ℕ) (payload : List ℚ),
      payload.length < fuel → counter + payload.length / dim ≤ data.length →
      ∃ out, readLoop dim fuel data counter payload = Except.ok out ∧
        out.length = data.length ∧
        ∀ i, counter + payload.length / dim ≤ i → out[i]? = data[i]? := by
  induction fuel with
  | zero => intro data counter payload hf _; omega
  | succ fuel ih =>
    intro data counter payload hf hc
    by_cases hrow : dim ≤ payload.length
    · obtain ⟨r, hr⟩ : ∃ r, (payload.length - dim) / dim = r := ⟨_, rfl⟩
      have hdiv : payload.length / dim = r + 1 := by
        rw [Nat.div_eq_sub_div hdim hrow, hr]
      rw [hdiv] at hc
      have hcounter : counter < data.length := by omega
      rw [readLoop, if_pos hrow, if_pos hcounter]
      have hlen2 : (payload.drop dim).length = payload.length - dim := by simp
      obtain ⟨out, hout, hlen, hpres⟩ :=
        ih (data.set counter (payload.take dim)) (counter + 1) (payload.drop dim)
          (by rw [hlen2]; omega) (by rw [List.length_set, hlen2, hr]; omega)
      refine ⟨out, hout, by rw [hlen, List.length_set], ?_⟩
      intro i hi
      simp only [hlen2, hr] at hpres
      rw [hpres i (by omega), List.getElem?_set_ne (by omega)]
    · rw [readLoop, if_neg hrow]
      have hdiv : payload.length / dim = 0 := Nat.div_eq_of_lt (by omega)
      exact ⟨data, rfl, rfl, fun i _ => rfl⟩

lemma ReadBin_spec (declared_count dim : ℕ) (payload : List ℚ) (hdim : 0 < dim)
    (hrows : payload.length / dim ≤ declared_count) :
    ∃ out, ReadBin declared_count dim payload = Except.ok out ∧
      out.length = declared_count ∧
      ∀ i, payload.length / dim ≤ i → i < declared_count → out[i]? = some [] := by
  obtain ⟨out, hout, hlen, hpres⟩ :=
    readLoop_spec dim hdim (payload.length + 1) (List.replicate declared_count []) 0 payload
      (by omega) (by rw [List.length_replicate]; omega)
  rw [List.length_replicate] at hlen
  refine ⟨out, hout, hlen, fun i h1 h2 => ?_⟩
  rw [hpres i (by omega), List.getElem?_replicate, if_pos h2]

lemma U32_eq : U32 = 4294967296 := by norm_num [U32]

lemma cToUInt32_kSampleProportion : cToUInt32 kSampleProportion = 0 := by decide

lemma sample_prop_eq_zero (n : ℕ) : sample_prop n = 0 := by
  show (n * cToUInt32 kSampleProportion) % U32 = 0
  rw [cToUInt32_kSampleProportion]
  simp

/-! Claim theorems. -/

attribute [local semireducible] Rat.add Rat.sub Rat.mul

set_option maxRecDepth 1000000

/-- C1: the claim fails on the code (code bug).  The spec prescribes a scan
bound of `floor(N × sampleProportion)` — 10 at N = 10000 — but baseline.cpp
line 59 (glasshouse line 72) casts the proportion to `uint32_t` *before*
multiplying, so `sample_prop` is `N * 0 = 0` for every N: candidate
generation scans no dataset index at all, and a kind-0 query's pre-padding
candidate set is empty instead of `0 .. floor(N × 0.001) − 1`. -/
theorem C1_sample_prop_vanishes :
    sample_prop 10000 = 0 ∧ specSampleSize 10000 = 10 ∧
    (∀ n, sample_prop n = 0) ∧
    candidates [[0, 0]] [0, 0, 0, 0] (sample_prop 10000) = [] := by
  refine ⟨sample_prop_eq_zero 10000, by decide, sample_prop_eq_zero, ?_⟩
  rw [sample_prop_eq_zero]
  exact candidates_sp_zero _ _

/-- C2 counterexample: the claim says a scanned point qualifies iff its dim 0
equals the query's field 1 as given, for every float value of that field.
Take field 1 = 5/2 (exactly representable in float) and a point with
dim 0 = 5/2: the values are equal, yet the point does not qualify, because
the code first truncates the field to `int32_t` (giving 2) and compares
against `float(2)`. -/
theorem C2_equality_counterexample :
    query_type [1, mkRat 5 2, 0, 0] = 1 ∧
    (([[mkRat 5 2]] : List (List ℚ)).getD 0 []).getD 0 0 =
      ([1, mkRat 5 2, 0, 0] : List ℚ).getD 1 0 ∧
    0 ∉ candidates [[mkRat 5 2]] [1, mkRat 5 2, 0, 0] 1 :=
  ⟨by decide, by decide, by decide⟩

/-- C2 (amended): for every kind-1 query a scanned index `j` qualifies iff
`nodes[j][0]` equals — exactly, with no tolerance — the float image of the
query's field 1 *truncated to `int32_t`* (so non-integer field-1 values are
compared against their truncation, not as given); a kind-3 query uses the
same equality conjunct together with the inclusive range predicate on
dim 1. -/
theorem C2_equality_filter (nodes : List (List ℚ)) (q1 q3 : List ℚ) (sp j : ℕ)
    (h1 : query_type q1 = 1) (h3 : query_type q3 = 3) :
    (j ∈ candidates nodes q1 sp ↔
      j < sp ∧ (nodes.getD j []).getD 0 0 = (query_value q1 : ℚ)) ∧
    (j ∈ candidates nodes q3 sp ↔
      j < sp ∧ ((nodes.getD j []).getD 0 0 = (query_value q3 : ℚ) ∧
        l_bound q3 ≤ (nodes.getD j []).getD 1 0 ∧
        (nodes.getD j []).getD 1 0 ≤ r_bound q3)) :=
  ⟨mem_candidates_kind_one nodes q1 sp j h1, mem_candidates_kind_three nodes q3 sp j h3⟩

/-- Witness for C2 (amended) at a concrete kind-1 query, kind-3 query and a
one-point dataset. -/
theorem C2_equality_filter_witness :
    (0 ∈ candidates [[2, 5]] [1, 2, 0, 0] 1 ↔
      0 < 1 ∧ (([[2, 5]] : List (List ℚ)).getD 0 []).getD 0 0 =
        (query_value [1, 2, 0, 0] : ℚ)) ∧
    (0 ∈ candidates [[2, 5]] [3, 2, 4, 6] 1 ↔
      0 < 1 ∧ ((([[2, 5]] : List (List ℚ)).getD 0 []).getD 0 0 =
          (query_value [3, 2, 4, 6] : ℚ) ∧
        l_bound [3, 2, 4, 6] ≤ (([[2, 5]] : List (List ℚ)).getD 0 []).getD 1 0 ∧
        (([[2, 5]] : List (List ℚ)).getD 0 []).getD 1 0 ≤ r_bound [3, 2, 4, 6])) :=
  C2_equality_filter [[2, 5]] [1, 2, 0, 0] [3, 2, 4, 6] 1 0 (by decide) (by decide)

/-- C3: the claim fails on the code (code bug).  The read loop never compares
the row counter with the declared count: with declared count 1 and a payload
of two complete 2-float rows, the second row is written at `data[1]`, one
past the end of the resized vector (undefined behaviour), instead of at most
one row being stored.  The trailing-partial-row half of the claim does hold:
with declared count 2 and a payload of two complete rows plus one leftover
float, the leftover is silently discarded. -/
theorem C3_readbin_overrun :
    ReadBin 1 2 [0, 0, 1, 1] = Except.error CError.outOfBounds ∧
    ReadBin 2 2 [0, 0, 1, 1, 5] = Except.ok [[0, 0], [1, 1]] :=
  ⟨by decide, by decide⟩

/-- C4: for every query (any kind, any scan bound) the emitted row has
exactly 100 IDs, is sorted ascending by squared feature distance to the
query's feature vector, and consists of 100 distance-smallest members of the
padded candidate list (every emitted candidate is at most as distant as every
candidate left out). -/
theorem C4_result_row (nodes : List (List ℚ)) (q : List ℚ) (sp : ℕ) :
    (processQuery nodes q sp).length = K_NEAREST ∧
    List.Sorted (fun a b => dist_to_query nodes q a ≤ dist_to_query nodes q b)
      (processQuery nodes q sp) ∧
    ∃ rest,
      (processQuery nodes q sp ++ rest).Perm
        (pad nodes.length (candidates nodes q sp)) ∧
      ∀ a ∈ processQuery nodes q sp, ∀ b ∈ rest,
        dist_to_query nodes q a ≤ dist_to_query nodes q b := by
  have hp := sorted_insertionSort_dist nodes q (pad nodes.length (candidates nodes q sp))
  have heq : processQuery nodes q sp =
      (List.insertionSort (fun a b => dist_to_query nodes q a ≤ dist_to_query nodes q b)
        (pad nodes.length (candidates nodes q sp))).take K_NEAREST := rfl
  have hsplit : List.Pairwise (fun a b => dist_to_query nodes q a ≤ dist_to_query nodes q b)
      ((List.insertionSort (fun a b => dist_to_query nodes q a ≤ dist_to_query nodes q b)
        (pad nodes.length (candidates nodes q sp))).take K_NEAREST ++
       (List.insertionSort (fun a b => dist_to_query nodes q a ≤ dist_to_query nodes q b)
        (pad nodes.length (candidates nodes q sp))).drop K_NEAREST) := by
    rw [List.take_append_drop]
    exact hp
  refine ⟨length_processQuery nodes q sp, sorted_knn_sorted nodes q _,
    (List.insertionSort (fun a b => dist_to_query nodes q a ≤ dist_to_query nodes q b)
      (pad nodes.length (candidates nodes q sp))).drop K_NEAREST, ?_, ?_⟩
  · rw [heq, List.take_append_drop]
    exact List.perm_insertionSort _ _
  · intro a ha b hb
    rw [heq] at ha
    exact (List.pairwise_append.mp hsplit).2.2 a ha b hb

/-- C5: when fewer than 100 candidates qualify (and enough dataset IDs exist
for the appended values to be genuine IDs, `K_NEAREST − |candidates| ≤ N`,
with N a `uint32_t` value), padding appends exactly the descending IDs
N−1, N−2, … — regardless of whether they duplicate existing candidates and
with no predicate check — until exactly 100 candidates exist. -/
theorem C5_padding_descending (nodes : List (List ℚ)) (q : List ℚ) (sp : ℕ)
    (hshort : (candidates nodes q sp).length < K_NEAREST)
    (hn : K_NEAREST - (candidates nodes q sp).length ≤ nodes.length)
    (hU : nodes.length < U32) :
    pad nodes.length (candidates nodes q sp) =
      candidates nodes q sp ++
        (List.range (K_NEAREST - (candidates nodes q sp).length)).map
          (fun k => nodes.length - (k + 1)) ∧
    (pad nodes.length (candidates nodes q sp)).length = K_NEAREST := by
  refine ⟨pad_eq_descending _ _ hn hU, ?_⟩
  rw [pad_length]
  omega

/-- Witness for C5 at a 100-point dataset and a kind-1 query scanned with
bound 0 (no qualifying candidate). -/
theorem C5_padding_descending_witness :
    pad (List.replicate K_NEAREST ([] : List ℚ)).length
        (candidates (List.replicate K_NEAREST []) [1] 0) =
      candidates (List.replicate K_NEAREST []) [1] 0 ++
        (List.range (K_NEAREST -
            (candidates (List.replicate K_NEAREST ([] : List ℚ)) [1] 0).length)).map
          (fun k => (List.replicate K_NEAREST ([] : List ℚ)).length - (k + 1)) ∧
    (pad (List.replicate K_NEAREST ([] : List ℚ)).length
        (candidates (List.replicate K_NEAREST []) [1] 0)).length = K_NEAREST :=
  C5_padding_descending (List.replicate K_NEAREST []) [1] 0
    (by decide) (by decide) (by decide)

/-- C6 counterexample: 100 points `[0, 0, i]`, a kind-1 query with equality
value 7 (nothing qualifies; the scan bound is the program's
`sample_prop N = 0`), zero feature vector.  The padding does append the
descending IDs 99, 98, …, 0, but the emitted result row is the
distance-sorted `[0, 1, …, 99]` (point `i` has distance `i * i`, all keys
distinct), so the emitted row's tail is not the descending sequence the
claim asserts. -/
theorem C6_descending_tail_counterexample :
    query_type q6 = 1 ∧
    (candidates ns6 q6 (sample_prop ns6.length)).length = 0 ∧
    pad ns6.length (candidates ns6 q6 (sample_prop ns6.length)) =
      (List.range K_NEAREST).map (fun k => ns6.length - (k + 1)) ∧
    processQuery ns6 q6 (sample_prop ns6.length) = List.range K_NEAREST ∧
    List.range K_NEAREST ≠ (List.range K_NEAREST).map (fun k => ns6.length - (k + 1)) :=
  ⟨by decide, by decide, by decide, by decide, by decide⟩

/-- C6 (amended): for a kind-1 query with fewer than 100 qualifying scanned
points (N at least 100 and a `uint32_t` value), the emitted row has exactly
100 IDs and is a permutation of the qualifying candidates followed by the
appended descending IDs N−1, N−2, …, reordered ascending by distance — the
appended IDs are present but need not form the literal tail of the emitted
row. -/
theorem C6_kind_one_short (nodes : List (List ℚ)) (q : List ℚ) (sp : ℕ)
    (hkind : query_type q = 1)
    (hshort : (candidates nodes q sp).length < K_NEAREST)
    (hn : K_NEAREST ≤ nodes.length) (hU : nodes.length < U32) :
    (processQuery nodes q sp).length = K_NEAREST ∧
    (processQuery nodes q sp).Perm
      (candidates nodes q sp ++
        (List.range (K_NEAREST - (candidates nodes q sp).length)).map
          (fun k => nodes.length - (k + 1))) ∧
    List.Sorted (fun a b => dist_to_query nodes q a ≤ dist_to_query nodes q b)
      (processQuery nodes q sp) := by
  refine ⟨length_processQuery nodes q sp, ?_, sorted_knn_sorted nodes q _⟩
  have hpadlen : (pad nodes.length (candidates nodes q sp)).length ≤ K_NEAREST := by
    rw [pad_length]
    omega
  have hperm := knn_sorted_perm_of_le nodes q _ hpadlen
  rw [← pad_eq_descending _ _ (by omega) hU]
  exact hperm

/-- Witness for C6 (amended) at the concrete dataset `ns6` and query `q6`. -/
theorem C6_kind_one_short_witness :
    (processQuery ns6 q6 0).length = K_NEAREST ∧
    (processQuery ns6 q6 0).Perm
      (candidates ns6 q6 0 ++
        (List.range (K_NEAREST - (candidates ns6 q6 0).length)).map
          (fun k => ns6.length - (k + 1))) ∧
    List.Sorted (fun a b => dist_to_query ns6 q6 a ≤ dist_to_query ns6 q6 b)
      (processQuery ns6 q6 0) :=
  C6_kind_one_short ns6 q6 0 (by decide) (by decide) (by decide) (by decide)

/-- C7: the distance only reads dimensions 2 and upward of both sides — two
points of equal length that agree there (however they differ in dims 0/1)
are equidistant from any query vector — and a point whose dims 2.. equal the
query's fields 4.. (the query's feature vector) has distance 0 from that
query's aligned feature vector. -/
theorem C7_feature_distance (p p2 q qv : List ℚ) (hlen : p.length = p2.length)
    (hfeat : ∀ i, i < p.length → 2 ≤ i → p.getD i 0 = p2.getD i 0)
    (hq : ∀ i, i < p.length → 2 ≤ i → p.getD i 0 = q.getD (i + 2) 0) :
    compare_with_id p qv = compare_with_id p2 qv ∧
    compare_with_id p (query_vec q) = 0 := by
  refine ⟨compare_with_id_congr p p2 qv hlen hfeat, ?_⟩
  apply compare_with_id_zero
  intro i hi h2
  rw [hq i hi h2, getD_query_vec q i h2]

/-- Witness for C7: points `[5, 6, 2, 3]` and `[0, 9, 2, 3]` differ in dims
0/1 and agree beyond; the query `[9, 9, 9, 9, 2, 3]` carries the same
feature vector `[2, 3]`. -/
theorem C7_feature_distance_witness :
    compare_with_id [5, 6, 2, 3] [1, 1, 2, 3] =
      compare_with_id [0, 9, 2, 3] [1, 1, 2, 3] ∧
    compare_with_id [5, 6, 2, 3] (query_vec [9, 9, 9, 9, 2, 3]) = 0 :=
  C7_feature_distance [5, 6, 2, 3] [0, 9, 2, 3] [9, 9, 9, 9, 2, 3] [1, 1, 2, 3]
    (by decide) (by decide) (by decide)

/-- C8: within defined behaviour (a nonempty result collection whose rows all
hold at least 100 entries — a row shorter than `K` makes the C++ `write` read
out of bounds), `SaveKNN` fails its assertion iff the *first* row does not
have exactly 100 entries; rows after the first are never length-checked
(any length at least 100 is accepted as-is), and on success the output is
exactly the rows' first 100 words concatenated in order — `100 × #rows`
words, no header, no row count, no separators. -/
theorem C8_saveknn_first_row_only (knns : List (List ℕ)) (hne : knns ≠ [])
    (hrows : ∀ r ∈ knns, K_NEAREST ≤ r.length) :
    (SaveKNN knns = Except.error CError.assertionFailure ↔
      (knns.headD []).length ≠ K_NEAREST) ∧
    ((knns.headD []).length = K_NEAREST →
      SaveKNN knns = Except.ok (knns.flatMap fun r => r.take K_NEAREST) ∧
      (knns.flatMap fun r => r.take K_NEAREST).length = K_NEAREST * knns.length) := by
  have h0 : ¬knns.length = 0 := by simpa using hne
  have hflat : (knns.flatMap fun r => r.take K_NEAREST).length =
      K_NEAREST * knns.length := by
    rw [List.length_flatMap]
    have hmap : knns.map (List.length ∘ fun r => r.take K_NEAREST) =
        knns.map fun _ => K_NEAREST :=
      List.map_congr_left fun r hr => by
        have := hrows r hr
        simp only [Function.comp_apply, List.length_take]
        omega
    rw [hmap, List.map_const', List.sum_replicate, smul_eq_mul, Nat.mul_comm]
  constructor
  · constructor
    · intro h
      by_contra hlen
      rw [SaveKNN, if_neg h0, if_neg (not_ne_iff.mpr hlen), if_pos hrows] at h
      cases h
    · intro h
      rw [SaveKNN, if_neg h0, if_pos h]
  · intro h
    rw [SaveKNN, if_neg h0, if_neg (not_ne_iff.mpr h), if_pos hrows]
    exact ⟨rfl, hflat⟩

/-- Witness for C8: a first row of exactly 100 entries and a second row of
150 entries (not length-validated). -/
theorem C8_saveknn_first_row_only_witness :
    (SaveKNN [List.range K_NEAREST, List.range 150] =
        Except.error CError.assertionFailure ↔
      (([List.range K_NEAREST, List.range 150] : List (List ℕ)).headD []).length ≠
        K_NEAREST) ∧
    ((([List.range K_NEAREST, List.range 150] : List (List ℕ)).headD []).length =
        K_NEAREST →
      SaveKNN [List.range K_NEAREST, List.range 150] =
        Except.ok (([List.range K_NEAREST, List.range 150] : List (List ℕ)).flatMap
          fun r => r.take K_NEAREST) ∧
      (([List.range K_NEAREST, List.range 150] : List (List ℕ)).flatMap
          fun r => r.take K_NEAREST).length =
        K_NEAREST * ([List.range K_NEAREST, List.range 150] : List (List ℕ)).length) :=
  C8_saveknn_first_row_only [List.range K_NEAREST, List.range 150]
    (by decide) (by decide)

/-- C9: with fewer than 100 points (dataset A) the scan bound
`sample_prop N` is 0, so every candidate set is empty and the padding loop
runs 100 times: once `sampled` exceeds N, the `uint32_t` difference
`n_points − sampled` wraps — the value 2^32 − 1, far outside `0..N−1`, is
among the candidate IDs the evaluator then feeds to `nodes[knn[j]]`.  With
at least 100 points (dataset B, any scan bound up to N) every padded
candidate ID and every emitted ID is a valid index below N: N ≥ 100 is
exactly the precondition that keeps the evaluator in bounds. -/
theorem C9_padding_wrap_bounds (nodesA nodesB : List (List ℚ)) (qA qB : List ℚ)
    (sp : ℕ) (hA1 : 0 < nodesA.length) (hA2 : nodesA.length < K_NEAREST)
    (hB1 : K_NEAREST ≤ nodesB.length) (hB2 : nodesB.length < U32)
    (hsp : sp ≤ nodesB.length) :
    (candidates nodesA qA (sample_prop nodesA.length) = [] ∧
      U32 - 1 ∈ pad nodesA.length (candidates nodesA qA (sample_prop nodesA.length)) ∧
      ¬(U32 - 1 < nodesA.length)) ∧
    ((∀ id ∈ pad nodesB.length (candidates nodesB qB sp), id < nodesB.length) ∧
      ∀ id ∈ processQuery nodesB qB sp, id < nodesB.length) := by
  have hU := U32_eq
  have hK : K_NEAREST = 100 := rfl
  have hAzero : candidates nodesA qA (sample_prop nodesA.length) = [] := by
    rw [sample_prop_eq_zero]
    exact candidates_sp_zero _ _
  have hwrap : U32 - 1 ∈
      pad nodesA.length (candidates nodesA qA (sample_prop nodesA.length)) := by
    rw [hAzero, pad_eq_append]
    refine List.mem_append.mpr (Or.inr ?_)
    rw [List.mem_map]
    refine ⟨nodesA.length, ?_, ?_⟩
    · rw [List.mem_range]
      simpa using hA2
    · have h1 : nodesA.length + U32 - (1 + nodesA.length) = U32 - 1 := by omega
      rw [h1, Nat.mod_eq_of_lt (by omega)]
  have hBmem : ∀ id ∈ pad nodesB.length (candidates nodesB qB sp),
      id < nodesB.length := by
    intro id hid
    rw [pad_eq_descending _ _ (by omega) hB2] at hid
    rcases List.mem_append.mp hid with hc | hm
    · exact lt_of_lt_of_le (candidates_lt_of_mem hc) hsp
    · obtain ⟨k, hk, rfl⟩ := List.mem_map.mp hm
      omega
  exact ⟨⟨hAzero, hwrap, by omega⟩, hBmem,
    fun id hid => hBmem id (mem_processQuery hid)⟩

/-- Witness for C9: dataset A with one point (wrap occurs), dataset B with
100 points (all padded and emitted IDs in bounds). -/
theorem C9_padding_wrap_bounds_witness :
    (candidates [[0]] [0] (sample_prop ([[0]] : List (List ℚ)).length) = [] ∧
      U32 - 1 ∈ pad ([[0]] : List (List ℚ)).length
        (candidates [[0]] [0] (sample_prop ([[0]] : List (List ℚ)).length)) ∧
      ¬(U32 - 1 < ([[0]] : List (List ℚ)).length)) ∧
    ((∀ id ∈ pad (List.replicate 100 ([] : List ℚ)).length
        (candidates (List.replicate 100 []) [0] 0),
        id < (List.replicate 100 ([] : List ℚ)).length) ∧
      ∀ id ∈ processQuery (List.replicate 100 []) [0] 0,
        id < (List.replicate 100 ([] : List ℚ)).length) :=
  C9_padding_wrap_bounds [[0]] (List.replicate 100 []) [0] [0] 0
    (by decide) (by decide) (by decide) (by decide) (by decide)

/-- C10: when the declared row count is at least the number of complete rows
in the payload, `ReadBin` returns exactly `declared_count` rows; the slots
past the last complete row read keep their `resize` value, the empty row —
the sequence is not shortened, and consumers can observe the empty rows. -/
theorem C10_readbin_empty_rows (declared_count dim : ℕ) (payload : List ℚ)
    (hdim : 0 < dim) (hrows : payload.length / dim ≤ declared_count) :
    ∃ out, ReadBin declared_count dim payload = Except.ok out ∧
      out.length = declared_count ∧
      ∀ i, payload.length / dim ≤ i → i < declared_count → out[i]? = some [] :=
  ReadBin_spec declared_count dim payload hdim hrows

/-- Witness for C10: declared count 3, one complete 2-float row plus a
partial row — the returned slots 1 and 2 are empty rows. -/
theorem C10_readbin_empty_rows_witness :
    ∃ out, ReadBin 3 2 [5, 6, 7] = Except.ok out ∧
      out.length = 3 ∧
      ∀ i, ([5, 6, 7] : List ℚ).length / 2 ≤ i → i < 3 → out[i]? = some [] :=
  C10_readbin_empty_rows 3 2 [5, 6, 7] (by decide) (by decide)

end Baseline
